import Mathlib

/-!
Shallow embedding of `src/parse.rs` from the `cycle_define` repository: a
recursive-descent parser (built on `syn`-style token trees) for a versioned
interface-definition language, together with the versioned AST it constructs.

Modelling notes.

* The input is a token tree as produced by the Rust proc-macro tokenizer:
  identifiers, integer/float/string literals, single-character punctuation
  (multi-character operators such as `::` and `->` appear as consecutive
  punctuation characters, which is how the source consumes them), and
  delimited groups.  Source spans are diagnostic-only; the parser fills a
  placeholder span `0` into the AST, and AST equality is quantified over
  arbitrary spans.
* `input.parse::<Ident>()` in `syn` rejects Rust keywords while
  `Ident::parse_any` accepts them; this distinction is modelled through
  `rustKeywords`.
* Tokens left unconsumed inside a delimited group when the corresponding
  parse function returns are discarded.  This matches the behaviour the
  repository's own test suite exercises: `Object::parse` only peeks the kind
  keyword inside `obj(...)` and never consumes it, and the explicit
  `expect_empty` calls in the array/map branches of `FieldType::parse` are
  only meaningful under this semantics.
* A reachable Rust panic (the `split_once('.').unwrap()` inside
  `MinorVersion::parse`) is modelled as a distinguished outcome `PRes.panic`
  that propagates to the caller, distinct from ordinary `syn::Error` results.
* The recursive cluster of parse functions takes a fuel parameter for
  termination; `PRes.nofuel` marks fuel exhaustion and is an artifact of the
  embedding, not a behaviour of the source.
-/

namespace CycleDefine

abbrev Span := Nat

/-- Group delimiters of the Rust token tree. -/
inductive Delim where
| paren
| brace
| bracket
deriving DecidableEq, Repr

/-- Tokens as supplied to the parser: identifiers (keywords included),
literals, single punctuation characters and delimited groups. -/
inductive Tok where
| ident (s : String)
| intLit (s : String)
| floatLit (s : String)
| strLit (s : String)
| punct (c : Char)
| group (d : Delim) (ts : List Tok)

/-- The Rust keywords that `syn`'s strict `Ident` parse rejects
(`Ident::parse_any` accepts them). -/
def rustKeywords : List String :=
  ["as", "abstract", "async", "await", "become", "box", "break", "const",
   "continue", "crate", "do", "dyn", "else", "enum", "extern", "false",
   "final", "fn", "for", "if", "impl", "in", "let", "loop", "macro",
   "match", "mod", "move", "mut", "override", "priv", "pub", "ref",
   "return", "Self", "self", "static", "struct", "super", "trait", "true",
   "try", "type", "typeof", "unsafe", "unsized", "use", "virtual", "where",
   "while", "yield"]

/-- Outcome of one parse step: success with the value and the remaining
tokens, a terminal `syn::Error` with its message, a Rust panic, or fuel
exhaustion (an artifact of the embedding). -/
inductive PRes (α : Type) where
| ok (val : α) (rest : List Tok)
| err (msg : String)
| panic
| nofuel

def PRes.map {α β : Type} (f : α → β) : PRes α → PRes β
| .ok a rest => .ok (f a) rest
| .err e => .err e
| .panic => .panic
| .nofuel => .nofuel

def PRes.bind {α β : Type} : PRes α → (α → List Tok → PRes β) → PRes β
| .ok a rest, f => f a rest
| .err e, _ => .err e
| .panic, _ => .panic
| .nofuel, _ => .nofuel

@[simp] theorem PRes.map_ok {α β : Type} (f : α → β) (a : α) (r : List Tok) :
    PRes.map f (.ok a r) = .ok (f a) r := rfl

@[simp] theorem PRes.map_err {α β : Type} (f : α → β) (e : String) :
    PRes.map f (.err e : PRes α) = (.err e : PRes β) := rfl

@[simp] theorem PRes.map_panic {α β : Type} (f : α → β) :
    PRes.map f (.panic : PRes α) = (.panic : PRes β) := rfl

@[simp] theorem PRes.bind_ok {α β : Type} (a : α) (r : List Tok)
    (f : α → List Tok → PRes β) : PRes.bind (.ok a r) f = f a r := rfl

@[simp] theorem PRes.bind_err {α β : Type} (e : String)
    (f : α → List Tok → PRes β) : PRes.bind (.err e : PRes α) f = .err e := rfl

@[simp] theorem PRes.bind_panic {α β : Type}
    (f : α → List Tok → PRes β) : PRes.bind (.panic : PRes α) f = .panic := rfl

/-! Numeric literal parsing, mirroring `uN::from_str_radix(s, 10)` from the
Rust standard library: an optional leading `+`, at least one decimal digit,
failure on any other character and on overflow past `cap`. -/

def digitVal? (c : Char) : Option Nat :=
  if '0' ≤ c ∧ c ≤ '9' then some (c.toNat - '0'.toNat) else none

def fromStrRadix10Aux (cap : Nat) : Nat → List Char → Option Nat
| acc, [] => some acc
| acc, c :: cs =>
  match digitVal? c with
  | none => none
  | some d =>
    let acc' := acc * 10 + d
    if cap < acc' then none else fromStrRadix10Aux cap acc' cs

/-- `uN::from_str_radix(s, 10)` with `cap = 2^N - 1`. -/
def fromStrRadix10 (cap : Nat) (s : String) : Option Nat :=
  match s.data with
  | [] => none
  | '+' :: [] => none
  | '+' :: cs => fromStrRadix10Aux cap 0 cs
  | cs => fromStrRadix10Aux cap 0 cs

/-- `str::split_once(sep)`: split at the first occurrence of `sep`. -/
def splitOnceAux (sep : Char) : List Char → Option (List Char × List Char)
| [] => none
| c :: cs =>
  if c = sep then some ([], cs)
  else (splitOnceAux sep cs).map (fun p => (c :: p.1, p.2))

/-! The AST, mirroring the Rust data types.  `name_span` fields and the span
slot of `FieldType` are carried exactly as in the source; equality functions
below reproduce the `PartialEq` implementations. -/

structure MajorVersion where
  val : Nat
deriving DecidableEq, Repr

structure MinorVersion where
  major : Nat
  minor : Nat
deriving DecidableEq, Repr

structure Use where
  segments : List String
  alias_ : Option String
deriving DecidableEq, Repr

inductive IncludeItem where
| add (s : String)
| rem (s : String)
deriving DecidableEq, Repr

structure Include where
  version : MajorVersion
  items : List IncludeItem
deriving DecidableEq, Repr

inductive Primitive where
| int8 | int16 | int32 | int64
| uint8 | uint16 | uint32 | uint64
| float32 | float64
| boolean | string | bytes
| any
deriving DecidableEq, Repr

mutual

inductive FieldType where
| primitive (sp : Span) (p : Primitive) : FieldType
| type (sp : Span) (ident : String) (extra : Option String)
    (version : Option MajorVersion) : FieldType
| optional (sp : Span) (t : FieldType) : FieldType
| reference (sp : Span) (t : FieldType) : FieldType
| array (sp : Span) (t : FieldType) (size : Nat) : FieldType
| list (sp : Span) (t : FieldType) : FieldType
| map (sp : Span) (key : FieldType) (value : FieldType) : FieldType
| tuple (sp : Span) (t : TupleT) : FieldType

inductive TupleT where
| mk (items : List TupleItem) : TupleT

inductive TupleItem where
| incl (i : Include) : TupleItem
| field (f : TupleField) : TupleItem

inductive TupleField where
| mk (version : Option MinorVersion) (fieldType : FieldType) : TupleField

end

def TupleT.items : TupleT → List TupleItem
| .mk items => items

def TupleField.version : TupleField → Option MinorVersion
| .mk v _ => v

def TupleField.fieldType : TupleField → FieldType
| .mk _ t => t

structure StructField where
  version : Option MinorVersion
  name_span : Span
  name : String
  field_type : FieldType

inductive StructItem where
| incl (i : Include)
| field (f : StructField)

inductive StructBody where
| items (items : List StructItem)
| tuple (t : TupleT)
| unit

structure Struct where
  version : MajorVersion
  name_span : Span
  name : String
  body : StructBody

structure UnionField where
  version : Option MinorVersion
  name_span : Span
  name : String
  body : StructBody

inductive UnionItem where
| incl (i : Include)
| field (f : UnionField)

structure Union where
  version : MajorVersion
  name_span : Span
  name : String
  items : List UnionItem

structure EnumField where
  version : Option MinorVersion
  name_span : Span
  name : String
  value : Option Nat

inductive EnumItem where
| incl (i : Include)
| field (f : EnumField)

structure Enum where
  version : MajorVersion
  name_span : Span
  name : String
  items : List EnumItem

structure Function where
  version : MajorVersion
  name_span : Span
  name : String
  items : List StructItem
  return_type : Option FieldType

structure Command where
  version : MajorVersion
  name_span : Span
  name : String
  items : List StructItem

inductive Object where
| struct (s : Struct)
| union (u : Union)
| enum (e : Enum)

/-- The Rust `Type` enum (renamed: `Type` is a Lean keyword). -/
inductive TypeDef where
| object (o : Object)
| struct (s : Struct)
| union (u : Union)
| enum (e : Enum)
| function (f : Function)
| command (c : Command)

structure Scheme where
  name : String
  uses : List Use
  types : List TypeDef

/-! Non-recursive parse functions (no fuel needed). -/

/-- `MajorVersion::parse`: a parenthesized integer literal, range-checked by
`u16::from_str_radix(_, 10)`. -/
def MajorVersion.parse (ts : List Tok) : PRes MajorVersion :=
  match ts with
  | .group .paren inner :: rest =>
    match inner with
    | .intLit s :: _ =>
      match fromStrRadix10 65535 s with
      | some v => .ok ⟨v⟩ rest
      | none => .err "major version must be valid u16 value"
    | _ => .err "expected integer literal"
  | _ => .err "expected parentheses"

/-- `MinorVersion::parse`: a parenthesized float literal, split at the first
dot via `split_once('.').unwrap()` — `PRes.panic` when the literal has no
dot — with both halves range-checked as `u16`. -/
def MinorVersion.parse (ts : List Tok) : PRes MinorVersion :=
  match ts with
  | .group .paren inner :: rest =>
    match inner with
    | .floatLit s :: _ =>
      match splitOnceAux '.' s.data with
      | none => .panic
      | some (majorCs, minorCs) =>
        match fromStrRadix10 65535 (String.mk majorCs) with
        | none => .err "major and minor versions must be valid u16 values"
        | some major =>
          match fromStrRadix10 65535 (String.mk minorCs) with
          | none => .err "major and minor versions must be valid u16 values"
          | some minor => .ok ⟨major, minor⟩ rest
    | _ => .err "expected floating point literal"
  | _ => .err "expected parentheses"

/-- `parse_int_lit`: `u32::from_str_radix` on the literal's text, with a
caller-supplied range-error message. -/
def parse_int_lit (s : String) (msg : String) : Except String Nat :=
  match fromStrRadix10 4294967295 s with
  | some v => .ok v
  | none => .error msg

/-- The adjustment-list loop inside `Include::parse`: items of the shape
`'@' ('add' | 'rem') '(' Ident ')' ','`; an `@` followed by neither
directive falls through directly to the comma. -/
def parseIncludeItems : List Tok → PRes (List IncludeItem)
| [] => .ok [] []
| .punct '@' :: .ident "add" :: .group .paren inner :: rest =>
  (match inner with
   | .ident nm :: _ =>
     if nm ∈ rustKeywords then .err "expected identifier"
     else
       match rest with
       | .punct ',' :: rest2 =>
         (parseIncludeItems rest2).map (fun items => .add nm :: items)
       | _ => .err "expected `,`"
   | _ => .err "expected identifier")
| .punct '@' :: .ident "add" :: _ => .err "expected parentheses"
| .punct '@' :: .ident "rem" :: .group .paren inner :: rest =>
  (match inner with
   | .ident nm :: _ =>
     if nm ∈ rustKeywords then .err "expected identifier"
     else
       match rest with
       | .punct ',' :: rest2 =>
         (parseIncludeItems rest2).map (fun items => .rem nm :: items)
       | _ => .err "expected `,`"
   | _ => .err "expected identifier")
| .punct '@' :: .ident "rem" :: _ => .err "expected parentheses"
| .punct '@' :: .punct ',' :: rest => parseIncludeItems rest
| .punct '@' :: _ => .err "expected `,`"
| _ => .err "expected `@`"

/-- `Include::parse`: a major version, then an optional braced list of
`@add(name)` / `@rem(name)` adjustments. -/
def Include.parse (ts : List Tok) : PRes Include :=
  (MajorVersion.parse ts).bind fun version rest =>
    match rest with
    | .group .brace inner :: rest2 =>
      (match parseIncludeItems inner with
       | .ok items _ => .ok ⟨version, items⟩ rest2
       | .err e => .err e
       | .panic => .panic
       | .nofuel => .nofuel)
    | _ => .ok ⟨version, []⟩ rest

/-- `parse_include_or_minor_version`: at an `@`, dispatch on the keyword:
`ver` starts an `Include`; the directive allowed for this container
(`add` when `add_is_valid`, else `rem`) starts a minor-version tag; the
disallowed directive is a policy error naming it and the container kind. -/
def parse_include_or_minor_version (add_is_valid : Bool) (invalid_for : String)
    (ts : List Tok) : PRes (Option Include × Option MinorVersion) :=
  match ts with
  | .punct '@' :: .ident k :: rest =>
    if k = "ver" then
      (Include.parse rest).map (fun i => (some i, none))
    else if (if add_is_valid then k = "add" else k = "rem") then
      (MinorVersion.parse rest).map (fun mv => (none, some mv))
    else if add_is_valid ∧ k = "rem" then
      .err ("@rem directive is not allowed for " ++ invalid_for)
    else if add_is_valid = false ∧ k = "add" then
      .err ("@add directive is not allowed for " ++ invalid_for)
    else
      .err "expected one of: ver, add, rem"
  | .punct '@' :: _ => .err "expected one of: ver, add, rem"
  | _ => .ok (none, none) ts

/-- `EnumField::parse`: a (strict) identifier, optionally `'=' IntLit` with
the literal range-checked as `u32`. -/
def EnumField.parse (version : Option MinorVersion) (ts : List Tok) :
    PRes EnumField :=
  match ts with
  | .ident s :: rest =>
    if s ∈ rustKeywords then .err "expected identifier"
    else
      match rest with
      | .punct '=' :: rest2 =>
        (match rest2 with
         | .intLit l :: rest3 =>
           (match parse_int_lit l "invalid enum int literal" with
            | .ok v => .ok ⟨version, 0, s, some v⟩ rest3
            | .error e => .err e)
         | _ => .err "expected integer literal")
      | _ => .ok ⟨version, 0, s, none⟩ rest
  | _ => .err "expected identifier"

/-- The segment/alias loop of `Use::parse`: stop at `';'`, or at
`'as' Ident ';'`, otherwise consume `'::' Ident`; reaching end of input
also ends the import. -/
def Use.parseSegs (segments : List String) : List Tok → PRes Use
| [] => .ok ⟨segments, none⟩ []
| .punct ';' :: rest => .ok ⟨segments, none⟩ rest
| .ident "as" :: rest =>
  (match rest with
   | .ident a :: rest2 =>
     if a ∈ rustKeywords then .err "expected identifier"
     else
       match rest2 with
       | .punct ';' :: rest3 => .ok ⟨segments, some a⟩ rest3
       | _ => .err "expected `;`"
   | _ => .err "expected identifier")
| .punct ':' :: .punct ':' :: .ident s :: rest =>
  if s ∈ rustKeywords then .err "expected identifier"
  else Use.parseSegs (segments ++ [s]) rest
| .punct ':' :: .punct ':' :: _ => .err "expected identifier"
| .punct ':' :: _ => .err "expected `:`"
| _ => .err "expected `:`"

/-- `Use::parse` (the keyword `use` itself is consumed by the caller): first
segment via `Ident::parse_any`, an explicit error on immediate end of input,
then the segment/alias loop. -/
def Use.parse (ts : List Tok) : PRes Use :=
  match ts with
  | .ident s :: rest =>
    if rest.isEmpty then .err "expected ';', or '::identifier'"
    else Use.parseSegs [s] rest
  | _ => .err "expected identifier"

/-- The keyword-to-primitive table of `FieldType::parse`. -/
def primOfString : String → Option Primitive
| "i8" => some .int8
| "i16" => some .int16
| "i32" => some .int32
| "i64" => some .int64
| "u8" => some .uint8
| "u16" => some .uint16
| "u32" => some .uint32
| "u64" => some .uint64
| "f32" => some .float32
| "f64" => some .float64
| "bool" => some .boolean
| "str" => some .string
| "bytes" => some .bytes
| "any" => some .any
| _ => none

/-! The recursive cluster of parse functions, all over the same fuel
parameter (decremented on entry of every function; `nofuel` never occurs for
fuel larger than the nesting depth of the input). -/

mutual

/-- `FieldType::parse`: primitive keyword or named type (with optional
`'::' Ident` and `'@' ver MajorVersion`), `?`/`&` prefixes, the bracketed
list/array/map form, or a parenthesized tuple. -/
def FieldType.parse : Nat → List Tok → PRes FieldType
| 0, _ => .nofuel
| fuel+1, ts =>
  match ts with
  | .ident s :: rest =>
    if s ∈ rustKeywords then .err "expected identifier"
    else
      match primOfString s with
      | some p => .ok (.primitive 0 p) rest
      | none =>
        let secondRes : PRes (Option String) :=
          match rest with
          | .punct ':' :: rest2 =>
            (match rest2 with
             | .punct ':' :: rest3 =>
               (match rest3 with
                | .ident s2 :: rest4 =>
                  if s2 ∈ rustKeywords then .err "expected identifier"
                  else .ok (some s2) rest4
                | _ => .err "expected identifier")
             | _ => .err "expected `:`")
          | _ => .ok none rest
        secondRes.bind fun second rest' =>
          match rest' with
          | .punct '@' :: rest2 =>
            (match rest2 with
             | .ident "ver" :: rest3 =>
               (MajorVersion.parse rest3).map
                 (fun v => FieldType.type 0 s second (some v))
             | _ => .err "expected `ver`")
          | _ => .ok (.type 0 s second none) rest'
  | .punct '?' :: rest =>
    (FieldType.parse fuel rest).map (fun t => .optional 0 t)
  | .punct '&' :: rest =>
    (FieldType.parse fuel rest).map (fun t => .reference 0 t)
  | .group .bracket inner :: rest =>
    (FieldType.parse fuel inner).bind fun elem innerRest =>
      match innerRest with
      | [] => .ok (.list 0 elem) rest
      | .punct ';' :: ir2 =>
        (match ir2 with
         | .intLit sz :: ir3 =>
           if ir3.isEmpty then
             match parse_int_lit sz "invalid array size literal" with
             | .ok n => .ok (.array 0 elem n) rest
             | .error e => .err e
           else .err "expected nothing here"
         | _ => .err "expected integer literal")
      | .punct ':' :: ir2 =>
        (FieldType.parse fuel ir2).bind fun v ir3 =>
          if ir3.isEmpty then .ok (.map 0 elem v) rest
          else .err "expected nothing here"
      | _ => .err "expected `;` or `:`"
  | .group .paren _ :: _ =>
    (TupleT.parse fuel ts).map (fun t => .tuple 0 t)
  | _ => .err "expected field type"

/-- `Tuple::parse`: a parenthesized comma-separated item list with the
trailing comma optional. -/
def TupleT.parse : Nat → List Tok → PRes TupleT
| 0, _ => .nofuel
| fuel+1, ts =>
  match ts with
  | .group .paren inner :: rest =>
    (match tupleItemsLoop fuel inner with
     | .ok items _ => .ok (.mk items) rest
     | .err e => .err e
     | .panic => .panic
     | .nofuel => .nofuel)
  | _ => .err "expected parentheses"

def tupleItemsLoop : Nat → List Tok → PRes (List TupleItem)
| 0, _ => .nofuel
| fuel+1, ts =>
  if ts.isEmpty then .ok [] []
  else
    (parse_include_or_minor_version true "tuple fields" ts).bind fun iv rest =>
      PRes.bind
        (match iv.1 with
         | some i => PRes.ok (TupleItem.incl i) rest
         | none =>
           (FieldType.parse fuel rest).map
             (fun ft => TupleItem.field (.mk iv.2 ft)))
        fun item rest2 =>
          if rest2.isEmpty then .ok [item] []
          else
            match rest2 with
            | .punct ',' :: rest3 =>
              (tupleItemsLoop fuel rest3).map (fun items => item :: items)
            | _ => .err "expected `,`"

/-- `StructItem::parse_all`: the comma-terminated item loop shared by struct
named-field bodies and function/command parameter lists. -/
def StructItem.parse_all : Nat → String → List Tok → PRes (List StructItem)
| 0, _, _ => .nofuel
| fuel+1, invalid_for, ts =>
  if ts.isEmpty then .ok [] []
  else
    (parse_include_or_minor_version true invalid_for ts).bind fun iv rest =>
      PRes.bind
        (match iv.1 with
         | some i => PRes.ok (StructItem.incl i) rest
         | none => (StructField.parse fuel iv.2 rest).map StructItem.field)
        fun item rest2 =>
          match rest2 with
          | .punct ',' :: rest3 =>
            (StructItem.parse_all fuel invalid_for rest3).map
              (fun items => item :: items)
          | _ => .err "expected `,`"

def StructField.parse : Nat → Option MinorVersion → List Tok → PRes StructField
| 0, _, _ => .nofuel
| fuel+1, version, ts =>
  match ts with
  | .ident s :: rest =>
    if s ∈ rustKeywords then .err "expected identifier"
    else
      match rest with
      | .punct ':' :: rest2 =>
        (FieldType.parse fuel rest2).map (fun ft => ⟨version, 0, s, ft⟩)
      | _ => .err "expected `:`"
  | _ => .err "expected struct field name"

/-- `StructBody::parse`: braces give named fields, parentheses a tuple, and
the unit body is recognized at the closing token of the position — `;`
(consumed here) for a declaration, `,` (left for the item loop) for a union
variant. -/
def StructBody.parse : Nat → Bool → List Tok → PRes StructBody
| 0, _, _ => .nofuel
| fuel+1, is_union_field, ts =>
  match ts with
  | .group .brace inner :: rest =>
    (match StructItem.parse_all fuel "struct fields" inner with
     | .ok items _ => .ok (.items items) rest
     | .err e => .err e
     | .panic => .panic
     | .nofuel => .nofuel)
  | .group .paren _ :: _ => (TupleT.parse fuel ts).map StructBody.tuple
  | .punct ';' :: rest =>
    if is_union_field then .err "expected curly braces, parentheses or `,`"
    else .ok .unit rest
  | .punct ',' :: _ =>
    if is_union_field then .ok .unit ts
    else .err "expected curly braces, parentheses or `;`"
  | _ => .err "expected struct body"

def Struct.parse : Nat → MajorVersion → List Tok → PRes Struct
| 0, _, _ => .nofuel
| fuel+1, version, ts =>
  match ts with
  | .ident s :: rest =>
    if s ∈ rustKeywords then .err "expected identifier"
    else (StructBody.parse fuel false rest).map (fun b => ⟨version, 0, s, b⟩)
  | _ => .err "expected identifier"

def UnionField.parse : Nat → Option MinorVersion → List Tok → PRes UnionField
| 0, _, _ => .nofuel
| fuel+1, version, ts =>
  match ts with
  | .ident s :: rest =>
    if s ∈ rustKeywords then .err "expected identifier"
    else (StructBody.parse fuel true rest).map (fun b => ⟨version, 0, s, b⟩)
  | _ => .err "expected union field name"

def unionItemsLoop : Nat → List Tok → PRes (List UnionItem)
| 0, _ => .nofuel
| fuel+1, ts =>
  if ts.isEmpty then .ok [] []
  else
    (parse_include_or_minor_version false "union fields" ts).bind fun iv rest =>
      PRes.bind
        (match iv.1 with
         | some i => PRes.ok (UnionItem.incl i) rest
         | none => (UnionField.parse fuel iv.2 rest).map UnionItem.field)
        fun item rest2 =>
          match rest2 with
          | .punct ',' :: rest3 =>
            (unionItemsLoop fuel rest3).map (fun items => item :: items)
          | _ => .err "expected `,`"

def Union.parse : Nat → MajorVersion → List Tok → PRes Union
| 0, _, _ => .nofuel
| fuel+1, version, ts =>
  match ts with
  | .ident s :: rest =>
    if s ∈ rustKeywords then .err "expected identifier"
    else
      match rest with
      | .group .brace inner :: rest2 =>
        (match unionItemsLoop fuel inner with
         | .ok items _ => .ok ⟨version, 0, s, items⟩ rest2
         | .err e => .err e
         | .panic => .panic
         | .nofuel => .nofuel)
      | _ => .err "expected curly braces"
  | _ => .err "expected identifier"

def enumItemsLoop : Nat → List Tok → PRes (List EnumItem)
| 0, _ => .nofuel
| fuel+1, ts =>
  if ts.isEmpty then .ok [] []
  else
    (parse_include_or_minor_version false "enum fields" ts).bind fun iv rest =>
      PRes.bind
        (match iv.1 with
         | some i => PRes.ok (EnumItem.incl i) rest
         | none => (EnumField.parse iv.2 rest).map EnumItem.field)
        fun item rest2 =>
          match rest2 with
          | .punct ',' :: rest3 =>
            (enumItemsLoop fuel rest3).map (fun items => item :: items)
          | _ => .err "expected `,`"

def Enum.parse : Nat → MajorVersion → List Tok → PRes Enum
| 0, _, _ => .nofuel
| fuel+1, version, ts =>
  match ts with
  | .ident s :: rest =>
    if s ∈ rustKeywords then .err "expected identifier"
    else
      match rest with
      | .group .brace inner :: rest2 =>
        (match enumItemsLoop fuel inner with
         | .ok items _ => .ok ⟨version, 0, s, items⟩ rest2
         | .err e => .err e
         | .panic => .panic
         | .nofuel => .nofuel)
      | _ => .err "expected curly braces"
  | _ => .err "expected identifier"

def Function.parse : Nat → MajorVersion → List Tok → PRes Function
| 0, _, _ => .nofuel
| fuel+1, version, ts =>
  match ts with
  | .ident s :: rest =>
    if s ∈ rustKeywords then .err "expected identifier"
    else
      match rest with
      | .group .paren inner :: rest2 =>
        (match StructItem.parse_all fuel "function params" inner with
         | .ok items _ =>
           (match rest2 with
            | .punct '-' :: .punct '>' :: rest3 =>
              (FieldType.parse fuel rest3).map
                (fun rt => ⟨version, 0, s, items, some rt⟩)
            | _ => .ok ⟨version, 0, s, items, none⟩ rest2)
         | .err e => .err e
         | .panic => .panic
         | .nofuel => .nofuel)
      | _ => .err "expected parentheses"
  | _ => .err "expected identifier"

def Command.parse : Nat → MajorVersion → List Tok → PRes Command
| 0, _, _ => .nofuel
| fuel+1, version, ts =>
  match ts with
  | .ident s :: rest =>
    if s ∈ rustKeywords then .err "expected identifier"
    else
      match rest with
      | .group .paren inner :: rest2 =>
        (match StructItem.parse_all fuel "command params" inner with
         | .ok items _ => .ok ⟨version, 0, s, items⟩ rest2
         | .err e => .err e
         | .panic => .panic
         | .nofuel => .nofuel)
      | _ => .err "expected parentheses"
  | _ => .err "expected identifier"

/-- `Object::parse`: the kind keyword is only peeked inside the parentheses
(and — matching the source — never consumed there); the body is parsed from
the outer stream by the selected parser. -/
def Object.parse : Nat → MajorVersion → List Tok → PRes Object
| 0, _, _ => .nofuel
| fuel+1, version, ts =>
  match ts with
  | .group .paren inner :: rest =>
    (match inner with
     | .ident "struct" :: _ => (Struct.parse fuel version rest).map Object.struct
     | .ident "union" :: _ => (Union.parse fuel version rest).map Object.union
     | .ident "enum" :: _ => (Enum.parse fuel version rest).map Object.enum
     | _ => .err "expected one of: struct, union, enum")
  | _ => .err "expected parentheses"

/-- The top-level loop of `Scheme::parse`: at each iteration, a `use` import
or an `@ver(N)`-prefixed type declaration, until the input is exhausted. -/
def schemeLoop : Nat → String → List Use → List TypeDef → List Tok → PRes Scheme
| 0, _, _, _, _ => .nofuel
| fuel+1, name, uses, types, ts =>
  match ts with
  | [] => .ok ⟨name, uses, types⟩ []
  | .ident "use" :: rest =>
    (Use.parse rest).bind fun u rest2 =>
      schemeLoop fuel name (uses ++ [u]) types rest2
  | .punct '@' :: rest =>
    (match rest with
     | .ident "ver" :: rest2 =>
       (MajorVersion.parse rest2).bind fun version rest3 =>
         (match rest3 with
          | .ident "obj" :: r =>
            (Object.parse fuel version r).bind fun v r2 =>
              schemeLoop fuel name uses (types ++ [.object v]) r2
          | .ident "struct" :: r =>
            (Struct.parse fuel version r).bind fun v r2 =>
              schemeLoop fuel name uses (types ++ [.struct v]) r2
          | .ident "union" :: r =>
            (Union.parse fuel version r).bind fun v r2 =>
              schemeLoop fuel name uses (types ++ [.union v]) r2
          | .ident "enum" :: r =>
            (Enum.parse fuel version r).bind fun v r2 =>
              schemeLoop fuel name uses (types ++ [.enum v]) r2
          | .ident "fn" :: r =>
            (Function.parse fuel version r).bind fun v r2 =>
              schemeLoop fuel name uses (types ++ [.function v]) r2
          | .ident "cmd" :: r =>
            (Command.parse fuel version r).bind fun v r2 =>
              schemeLoop fuel name uses (types ++ [.command v]) r2
          | _ => .err "expected one of: obj, struct, union, enum, fn, cmd")
     | _ => .err "expected `ver`")
  | _ => .err "expected `use` or `@`"

/-- `Scheme::parse`: the `sch "name";` header followed by the top-level
loop. -/
def Scheme.parse : Nat → List Tok → PRes Scheme
| 0, _ => .nofuel
| fuel+1, ts =>
  match ts with
  | .ident "sch" :: rest =>
    (match rest with
     | .strLit name :: rest2 =>
       (match rest2 with
        | .punct ';' :: rest3 => schemeLoop fuel name [] [] rest3
        | _ => .err "expected `;`")
     | _ => .err "expected string literal")
  | _ => .err "expected `sch`"

end

/-! Auxiliary vocabulary used to state the claims. -/

/-- The numeric value of a digit string (most significant digit first). -/
def decValue (cs : List Char) : Nat :=
  cs.foldl (fun a c => a * 10 + (c.toNat - '0'.toNat)) 0

/-- All characters are decimal digits. -/
def digitsOnly (cs : List Char) : Prop := ∀ c ∈ cs, '0' ≤ c ∧ c ≤ '9'

instance (cs : List Char) : Decidable (digitsOnly cs) := by
  unfold digitsOnly
  infer_instance

/-- Token form of an adjustment list inside `Include` braces:
`'@' ('add'|'rem') '(' name ')' ','` per entry. -/
def adjToks : List (Bool × String) → List Tok
| [] => []
| (isAdd, nm) :: rest =>
  Tok.punct '@' :: Tok.ident (if isAdd then "add" else "rem") ::
    Tok.group .paren [Tok.ident nm] :: Tok.punct ',' :: adjToks rest

/-- The `IncludeItem`s an adjustment list denotes, in source order. -/
def adjItems : List (Bool × String) → List IncludeItem
| [] => []
| (isAdd, nm) :: rest =>
  (if isAdd then IncludeItem.add nm else IncludeItem.rem nm) :: adjItems rest

/-- A top-level item template: a one-segment `use` import or a unit-struct
type declaration, used to express how the top-level loop interleaves the
two. -/
inductive TopItem where
| use1 (nm : String)
| decl (nm : String) (vt : String)

def TopItem.toks : TopItem → List Tok
| .use1 nm => [.ident "use", .ident nm, .punct ';']
| .decl nm vt =>
  [.punct '@', .ident "ver", .group .paren [.intLit vt],
   .ident "struct", .ident nm, .punct ';']

def TopItem.wf : TopItem → Prop
| .use1 _ => True
| .decl nm vt => nm ∉ rustKeywords ∧ (fromStrRadix10 65535 vt).isSome

def topToks : List TopItem → List Tok
| [] => []
| i :: is => i.toks ++ topToks is

def topUses : List TopItem → List Use
| [] => []
| .use1 nm :: is => ⟨[nm], none⟩ :: topUses is
| .decl _ _ :: is => topUses is

def topTypes : List TopItem → List TypeDef
| [] => []
| .use1 _ :: is => topTypes is
| .decl nm vt :: is =>
  .struct ⟨⟨(fromStrRadix10 65535 vt).getD 0⟩, 0, nm, .unit⟩ :: topTypes is

/-! Equality on AST values, mirroring the `PartialEq` implementations of the
source: derived implementations compare component-wise; the hand-written
ones (`FieldType`, `Struct`, `StructField`, `UnionField`, `EnumField`,
`Union`, `Enum`, `Function`, `Command`) skip the span fields.  `scrub`
replaces every span by `0`; the claim about span-insensitivity is stated
through it. -/

def listBeq {α : Type} (f : α → α → Bool) : List α → List α → Bool
| [], [] => true
| a :: as, b :: bs => f a b && listBeq f as bs
| _, _ => false

def optBeq {α : Type} (f : α → α → Bool) : Option α → Option α → Bool
| none, none => true
| some a, some b => f a b
| _, _ => false

mutual

def FieldType.beq : FieldType → FieldType → Bool
| .primitive _ p, .primitive _ q => p == q
| .type _ i e v, .type _ i2 e2 v2 => i == i2 && e == e2 && v == v2
| .optional _ t, .optional _ t2 => FieldType.beq t t2
| .reference _ t, .reference _ t2 => FieldType.beq t t2
| .array _ t n, .array _ t2 n2 => FieldType.beq t t2 && n == n2
| .list _ t, .list _ t2 => FieldType.beq t t2
| .map _ k v, .map _ k2 v2 => FieldType.beq k k2 && FieldType.beq v v2
| .tuple _ t, .tuple _ t2 => TupleT.beq t t2
| _, _ => false

def TupleT.beq : TupleT → TupleT → Bool
| .mk is1, .mk is2 => tupleItemsBeq is1 is2

def tupleItemsBeq : List TupleItem → List TupleItem → Bool
| [], [] => true
| a :: as, b :: bs => TupleItem.beq a b && tupleItemsBeq as bs
| _, _ => false

def TupleItem.beq : TupleItem → TupleItem → Bool
| .incl a, .incl b => a == b
| .field a, .field b => TupleField.beq a b
| _, _ => false

def TupleField.beq : TupleField → TupleField → Bool
| .mk v t, .mk v2 t2 => v == v2 && FieldType.beq t t2

end

mutual

def FieldType.scrub : FieldType → FieldType
| .primitive _ p => .primitive 0 p
| .type _ i e v => .type 0 i e v
| .optional _ t => .optional 0 (FieldType.scrub t)
| .reference _ t => .reference 0 (FieldType.scrub t)
| .array _ t n => .array 0 (FieldType.scrub t) n
| .list _ t => .list 0 (FieldType.scrub t)
| .map _ k v => .map 0 (FieldType.scrub k) (FieldType.scrub v)
| .tuple _ t => .tuple 0 (TupleT.scrub t)

def TupleT.scrub : TupleT → TupleT
| .mk items => .mk (tupleItemsScrub items)

def tupleItemsScrub : List TupleItem → List TupleItem
| [] => []
| i :: is => TupleItem.scrub i :: tupleItemsScrub is

def TupleItem.scrub : TupleItem → TupleItem
| .incl i => .incl i
| .field f => .field (TupleField.scrub f)

def TupleField.scrub : TupleField → TupleField
| .mk v t => .mk v (FieldType.scrub t)

end

def StructField.beq (a b : StructField) : Bool :=
  a.version == b.version && a.name == b.name &&
    FieldType.beq a.field_type b.field_type

def StructField.scrub (a : StructField) : StructField :=
  ⟨a.version, 0, a.name, FieldType.scrub a.field_type⟩

def StructItem.beq : StructItem → StructItem → Bool
| .incl a, .incl b => a == b
| .field a, .field b => StructField.beq a b
| _, _ => false

def StructItem.scrub : StructItem → StructItem
| .incl i => .incl i
| .field f => .field (StructField.scrub f)

def StructBody.beq : StructBody → StructBody → Bool
| .items a, .items b => listBeq StructItem.beq a b
| .tuple a, .tuple b => TupleT.beq a b
| .unit, .unit => true
| _, _ => false

def StructBody.scrub : StructBody → StructBody
| .items a => .items (a.map StructItem.scrub)
| .tuple a => .tuple (TupleT.scrub a)
| .unit => .unit

def Struct.beq (a b : Struct) : Bool :=
  a.version == b.version && a.name == b.name && StructBody.beq a.body b.body

def Struct.scrub (a : Struct) : Struct :=
  ⟨a.version, 0, a.name, StructBody.scrub a.body⟩

def UnionField.beq (a b : UnionField) : Bool :=
  a.version == b.version && a.name == b.name && StructBody.beq a.body b.body

def UnionField.scrub (a : UnionField) : UnionField :=
  ⟨a.version, 0, a.name, StructBody.scrub a.body⟩

def UnionItem.beq : UnionItem → UnionItem → Bool
| .incl a, .incl b => a == b
| .field a, .field b => UnionField.beq a b
| _, _ => false

def UnionItem.scrub : UnionItem → UnionItem
| .incl i => .incl i
| .field f => .field (UnionField.scrub f)

def Union.beq (a b : Union) : Bool :=
  a.version == b.version && a.name == b.name &&
    listBeq UnionItem.beq a.items b.items

def Union.scrub (a : Union) : Union :=
  ⟨a.version, 0, a.name, a.items.map UnionItem.scrub⟩

def EnumField.beq (a b : EnumField) : Bool :=
  a.version == b.version && a.name == b.name && a.value == b.value

def EnumField.scrub (a : EnumField) : EnumField :=
  ⟨a.version, 0, a.name, a.value⟩

def EnumItem.beq : EnumItem → EnumItem → Bool
| .incl a, .incl b => a == b
| .field a, .field b => EnumField.beq a b
| _, _ => false

def EnumItem.scrub : EnumItem → EnumItem
| .incl i => .incl i
| .field f => .field (EnumField.scrub f)

def Enum.beq (a b : Enum) : Bool :=
  a.version == b.version && a.name == b.name &&
    listBeq EnumItem.beq a.items b.items

def Enum.scrub (a : Enum) : Enum :=
  ⟨a.version, 0, a.name, a.items.map EnumItem.scrub⟩

def Function.beq (a b : Function) : Bool :=
  a.version == b.version && a.name == b.name &&
    listBeq StructItem.beq a.items b.items &&
    optBeq FieldType.beq a.return_type b.return_type

def Function.scrub (a : Function) : Function :=
  ⟨a.version, 0, a.name, a.items.map StructItem.scrub,
   a.return_type.map FieldType.scrub⟩

def Command.beq (a b : Command) : Bool :=
  a.version == b.version && a.name == b.name &&
    listBeq StructItem.beq a.items b.items

def Command.scrub (a : Command) : Command :=
  ⟨a.version, 0, a.name, a.items.map StructItem.scrub⟩

def Object.beq : Object → Object → Bool
| .struct a, .struct b => Struct.beq a b
| .union a, .union b => Union.beq a b
| .enum a, .enum b => Enum.beq a b
| _, _ => false

def Object.scrub : Object → Object
| .struct a => .struct (Struct.scrub a)
| .union a => .union (Union.scrub a)
| .enum a => .enum (Enum.scrub a)

def TypeDef.beq : TypeDef → TypeDef → Bool
| .object a, .object b => Object.beq a b
| .struct a, .struct b => Struct.beq a b
| .union a, .union b => Union.beq a b
| .enum a, .enum b => Enum.beq a b
| .function a, .function b => Function.beq a b
| .command a, .command b => Command.beq a b
| _, _ => false

def TypeDef.scrub : TypeDef → TypeDef
| .object a => .object (Object.scrub a)
| .struct a => .struct (Struct.scrub a)
| .union a => .union (Union.scrub a)
| .enum a => .enum (Enum.scrub a)
| .function a => .function (Function.scrub a)
| .command a => .command (Command.scrub a)

def Scheme.beq (a b : Scheme) : Bool :=
  a.name == b.name && a.uses == b.uses &&
    listBeq TypeDef.beq a.types b.types

def Scheme.scrub (a : Scheme) : Scheme :=
  ⟨a.name, a.uses, a.types.map TypeDef.scrub⟩

/-! Characterization of `from_str_radix` on digit strings. -/

theorem foldl_dec_ge (cs : List Char) : ∀ acc : Nat,
    acc ≤ cs.foldl (fun a c => a * 10 + (c.toNat - '0'.toNat)) acc := by
  induction cs with
  | nil => intro acc; simp
  | cons c cs ih =>
    intro acc
    simp only [List.foldl_cons]
    exact le_trans (by omega) (ih (acc * 10 + (c.toNat - '0'.toNat)))

theorem fromStrRadix10Aux_spec (cap : Nat) (cs : List Char) :
    ∀ acc : Nat, digitsOnly cs → acc ≤ cap →
    fromStrRadix10Aux cap acc cs =
      if cs.foldl (fun a c => a * 10 + (c.toNat - '0'.toNat)) acc ≤ cap
      then some (cs.foldl (fun a c => a * 10 + (c.toNat - '0'.toNat)) acc)
      else none := by
  induction cs with
  | nil => intro acc _ hacc; simp [fromStrRadix10Aux, hacc]
  | cons c cs ih =>
    intro acc hd hacc
    have hc : '0' ≤ c ∧ c ≤ '9' := hd c (by simp)
    have hdig : digitVal? c = some (c.toNat - '0'.toNat) := by
      simp [digitVal?, hc.1, hc.2]
    simp only [fromStrRadix10Aux, hdig, List.foldl_cons]
    by_cases hlt : cap < acc * 10 + (c.toNat - '0'.toNat)
    · have hge := foldl_dec_ge cs (acc * 10 + (c.toNat - '0'.toNat))
      simp only [hlt, if_true]
      rw [if_neg (by omega)]
    · simp only [hlt, if_false]
      exact ih _ (fun x hx => hd x (List.mem_cons_of_mem c hx)) (by omega)

theorem digit_ne_plus {c : Char} (h : '0' ≤ c ∧ c ≤ '9') : c ≠ '+' := by
  rintro rfl
  revert h
  decide

theorem fromStrRadix10_digits (cap : Nat) (s : String)
    (h1 : s.data ≠ []) (h2 : digitsOnly s.data) :
    fromStrRadix10 cap s =
      if decValue s.data ≤ cap then some (decValue s.data) else none := by
  rcases hd : s.data with _ | ⟨c, cs⟩
  · exact absurd hd h1
  · have hc := h2 c (by rw [hd]; exact List.mem_cons_self c cs)
    have hne : c ≠ '+' := digit_ne_plus hc
    have hdcs : digitsOnly (c :: cs) := by rw [← hd]; exact h2
    have haux := fromStrRadix10Aux_spec cap (c :: cs) 0 hdcs (Nat.zero_le cap)
    unfold fromStrRadix10
    rw [hd]
    simp only [decValue]
    split
    all_goals first
      | exact haux
      | (rename_i heq
         have hh : c = '+' := by
           have h3 := congrArg List.head? heq
           simpa using h3
         exact absurd hh hne)

/-- C3 helper fact: a dotless float literal has no split point. -/
theorem splitOnceAux_dotless :
    splitOnceAux '.' "1e3".data = none := rfl

/-- C4: for an integer literal consisting of decimal digits with value `L`,
the parse succeeds with `L` exactly when `L` fits the target width —
16 bits for a parenthesized major version, 32 bits for a bare fixed-array
size and for an explicit enum discriminant — and fails with the
corresponding range error otherwise. -/
theorem c4_int_literal_range :
    (∀ (s : String) (extra rest : List Tok), s.data ≠ [] → digitsOnly s.data →
      MajorVersion.parse (Tok.group .paren (Tok.intLit s :: extra) :: rest) =
        if decValue s.data ≤ 65535 then .ok ⟨decValue s.data⟩ rest
        else .err "major version must be valid u16 value")
  ∧ (∀ (f : Nat) (s : String) (rest : List Tok), s.data ≠ [] → digitsOnly s.data →
      FieldType.parse (f+2)
          (Tok.group .bracket [Tok.ident "u8", Tok.punct ';', Tok.intLit s] :: rest) =
        if decValue s.data ≤ 4294967295
        then .ok (.array 0 (.primitive 0 .uint8) (decValue s.data)) rest
        else .err "invalid array size literal")
  ∧ (∀ (s : String) (ver : Option MinorVersion) (rest : List Tok),
      s.data ≠ [] → digitsOnly s.data →
      EnumField.parse ver (Tok.ident "A" :: Tok.punct '=' :: Tok.intLit s :: rest) =
        if decValue s.data ≤ 4294967295
        then .ok ⟨ver, 0, "A", some (decValue s.data)⟩ rest
        else .err "invalid enum int literal") := by
  refine ⟨?_, ?_, ?_⟩
  · intro s extra rest h1 h2
    have hfs := fromStrRadix10_digits 65535 s h1 h2
    by_cases hle : decValue s.data ≤ 65535
    · rw [if_pos hle] at hfs
      simp [MajorVersion.parse, hfs, hle]
    · rw [if_neg hle] at hfs
      simp [MajorVersion.parse, hfs, hle]
  · intro f s rest h1 h2
    have hfs := fromStrRadix10_digits 4294967295 s h1 h2
    by_cases hle : decValue s.data ≤ 4294967295
    · rw [if_pos hle] at hfs
      simp [FieldType.parse, rustKeywords, primOfString, PRes.bind, PRes.map,
        parse_int_lit, hfs, hle]
    · rw [if_neg hle] at hfs
      simp [FieldType.parse, rustKeywords, primOfString, PRes.bind, PRes.map,
        parse_int_lit, hfs, hle]
  · intro s ver rest h1 h2
    have hfs := fromStrRadix10_digits 4294967295 s h1 h2
    by_cases hle : decValue s.data ≤ 4294967295
    · rw [if_pos hle] at hfs
      simp [EnumField.parse, rustKeywords, parse_int_lit, hfs, hle]
    · rw [if_neg hle] at hfs
      simp [EnumField.parse, rustKeywords, parse_int_lit, hfs, hle]

theorem c4_int_literal_range_witness :
    ("300".data ≠ [] ∧ digitsOnly "300".data ∧
      MajorVersion.parse [Tok.group .paren [Tok.intLit "300"]] = .ok ⟨300⟩ [])
  ∧ ("70000".data ≠ [] ∧ digitsOnly "70000".data ∧
      MajorVersion.parse [Tok.group .paren [Tok.intLit "70000"]] =
        .err "major version must be valid u16 value")
  ∧ (FieldType.parse 2
        [Tok.group .bracket [Tok.ident "u8", Tok.punct ';', Tok.intLit "4294967296"]] =
      .err "invalid array size literal")
  ∧ (EnumField.parse none [Tok.ident "A", Tok.punct '=', Tok.intLit "7"] =
      .ok ⟨none, 0, "A", some 7⟩ []) := by
  have hd3 : digitsOnly "300".data := by decide
  have hd7 : digitsOnly "70000".data := by decide
  have hd4 : digitsOnly "4294967296".data := by decide
  have hd1 : digitsOnly "7".data := by decide
  refine ⟨⟨by decide, hd3, ?_⟩, ⟨by decide, hd7, ?_⟩, ?_, ?_⟩
  · have h := c4_int_literal_range.1 "300" [] [] (by decide) hd3
    simpa using h
  · have h := c4_int_literal_range.1 "70000" [] [] (by decide) hd7
    simpa using h
  · have h := c4_int_literal_range.2.1 0 "4294967296" [] (by decide) hd4
    simpa using h
  · have h := c4_int_literal_range.2.2 "7" none [] (by decide) hd1
    simpa using h

/-- C3: on a well-formed `digits.digits` literal the parse yields the two
halves, and an overflowing half is a range error — but a float literal
without a dot (Rust admits the exponent form `1e3` as a float literal) makes
`MinorVersion::parse` panic on `split_once('.').unwrap()` instead of
returning an error, so "range (or syntax) error" and "no other outcome" do
not hold of the code. -/
theorem c3_minor_version_outcomes :
    MinorVersion.parse [Tok.group .paren [Tok.floatLit "1e3"]] = .panic
  ∧ MinorVersion.parse [Tok.group .paren [Tok.floatLit "1.2"]] = .ok ⟨1, 2⟩ []
  ∧ MinorVersion.parse [Tok.group .paren [Tok.floatLit "1.65536"]] =
      .err "major and minor versions must be valid u16 values"
  ∧ MinorVersion.parse [Tok.group .paren [Tok.floatLit "1."]] =
      .err "major and minor versions must be valid u16 values"
  ∧ MinorVersion.parse [Tok.group .paren [Tok.intLit "1"]] =
      .err "expected floating point literal" :=
  ⟨rfl, rfl, rfl, rfl, rfl⟩

/-- C1: in every container item list the minor-version directive follows the
container's policy.  Struct named-field lists, tuple positional-field lists
and function/command parameter lists accept `@add(m.n)` — the parsed item
carries that `MinorVersion` — and reject `@rem` with a policy error naming
the directive and the container kind; union-variant and enum-member lists
accept `@rem(m.n)` and reject `@add` with such an error. -/
theorem c1_minor_directive_policy
    (f : Nat) (t : String) (a b : Nat) (v : MajorVersion)
    (hmv : ∀ rs, MinorVersion.parse (Tok.group .paren [Tok.floatLit t] :: rs) =
      .ok ⟨a, b⟩ rs) :
    (StructBody.parse (f+4) false [Tok.group .brace
        [Tok.punct '@', Tok.ident "add", Tok.group .paren [Tok.floatLit t],
         Tok.ident "x", Tok.punct ':', Tok.ident "u8", Tok.punct ',']] =
      .ok (.items [.field ⟨some ⟨a, b⟩, 0, "x", .primitive 0 .uint8⟩]) [])
  ∧ (∀ innerRest outer, StructBody.parse (f+2) false
        (Tok.group .brace (Tok.punct '@' :: Tok.ident "rem" :: innerRest) :: outer) =
      .err "@rem directive is not allowed for struct fields")
  ∧ (∀ outer, TupleT.parse (f+3)
        (Tok.group .paren [Tok.punct '@', Tok.ident "add",
          Tok.group .paren [Tok.floatLit t], Tok.ident "u8"] :: outer) =
      .ok (.mk [.field (.mk (some ⟨a, b⟩) (.primitive 0 .uint8))]) outer)
  ∧ (∀ innerRest outer, TupleT.parse (f+2)
        (Tok.group .paren (Tok.punct '@' :: Tok.ident "rem" :: innerRest) :: outer) =
      .err "@rem directive is not allowed for tuple fields")
  ∧ (Function.parse (f+4) v [Tok.ident "F", Tok.group .paren
        [Tok.punct '@', Tok.ident "add", Tok.group .paren [Tok.floatLit t],
         Tok.ident "x", Tok.punct ':', Tok.ident "u8", Tok.punct ',']] =
      .ok ⟨v, 0, "F", [.field ⟨some ⟨a, b⟩, 0, "x", .primitive 0 .uint8⟩], none⟩ [])
  ∧ (∀ innerRest outer, Function.parse (f+2) v
        (Tok.ident "F" ::
          Tok.group .paren (Tok.punct '@' :: Tok.ident "rem" :: innerRest) :: outer) =
      .err "@rem directive is not allowed for function params")
  ∧ (∀ outer, Command.parse (f+4) v (Tok.ident "C" :: Tok.group .paren
        [Tok.punct '@', Tok.ident "add", Tok.group .paren [Tok.floatLit t],
         Tok.ident "x", Tok.punct ':', Tok.ident "u8", Tok.punct ','] :: outer) =
      .ok ⟨v, 0, "C", [.field ⟨some ⟨a, b⟩, 0, "x", .primitive 0 .uint8⟩]⟩ outer)
  ∧ (∀ innerRest outer, Command.parse (f+2) v
        (Tok.ident "C" ::
          Tok.group .paren (Tok.punct '@' :: Tok.ident "rem" :: innerRest) :: outer) =
      .err "@rem directive is not allowed for command params")
  ∧ (∀ outer, Union.parse (f+4) v (Tok.ident "U" :: Tok.group .brace
        [Tok.punct '@', Tok.ident "rem", Tok.group .paren [Tok.floatLit t],
         Tok.ident "V", Tok.punct ','] :: outer) =
      .ok ⟨v, 0, "U", [.field ⟨some ⟨a, b⟩, 0, "V", .unit⟩]⟩ outer)
  ∧ (∀ innerRest outer, Union.parse (f+2) v
        (Tok.ident "U" ::
          Tok.group .brace (Tok.punct '@' :: Tok.ident "add" :: innerRest) :: outer) =
      .err "@add directive is not allowed for union fields")
  ∧ (∀ outer, Enum.parse (f+3) v (Tok.ident "E" :: Tok.group .brace
        [Tok.punct '@', Tok.ident "rem", Tok.group .paren [Tok.floatLit t],
         Tok.ident "M", Tok.punct ','] :: outer) =
      .ok ⟨v, 0, "E", [.field ⟨some ⟨a, b⟩, 0, "M", none⟩]⟩ outer)
  ∧ (∀ innerRest outer, Enum.parse (f+2) v
        (Tok.ident "E" ::
          Tok.group .brace (Tok.punct '@' :: Tok.ident "add" :: innerRest) :: outer) =
      .err "@add directive is not allowed for enum fields") := by
  refine ⟨?_, fun _ _ => rfl, ?_, fun _ _ => rfl, ?_, fun _ _ => rfl,
    ?_, fun _ _ => rfl, ?_, fun _ _ => rfl, ?_, fun _ _ => rfl⟩
  · have h := hmv [Tok.ident "x", Tok.punct ':', Tok.ident "u8", Tok.punct ',']
    simp [StructBody.parse, StructItem.parse_all, parse_include_or_minor_version,
      StructField.parse, FieldType.parse, h, rustKeywords, primOfString, PRes.bind]
  · intro outer
    have h := hmv [Tok.ident "u8"]
    simp [TupleT.parse, tupleItemsLoop, parse_include_or_minor_version,
      FieldType.parse, h, rustKeywords, primOfString, PRes.bind]
  · have h := hmv [Tok.ident "x", Tok.punct ':', Tok.ident "u8", Tok.punct ',']
    simp [Function.parse, StructItem.parse_all, parse_include_or_minor_version,
      StructField.parse, FieldType.parse, h, rustKeywords, primOfString, PRes.bind]
  · intro outer
    have h := hmv [Tok.ident "x", Tok.punct ':', Tok.ident "u8", Tok.punct ',']
    simp [Command.parse, StructItem.parse_all, parse_include_or_minor_version,
      StructField.parse, FieldType.parse, h, rustKeywords, primOfString, PRes.bind]
  · intro outer
    have h := hmv [Tok.ident "V", Tok.punct ',']
    simp [Union.parse, unionItemsLoop, parse_include_or_minor_version,
      UnionField.parse, StructBody.parse, h, rustKeywords, PRes.bind]
  · intro outer
    have h := hmv [Tok.ident "M", Tok.punct ',']
    simp [Enum.parse, enumItemsLoop, parse_include_or_minor_version,
      EnumField.parse, h, rustKeywords, PRes.bind]

theorem c1_minor_directive_policy_witness :
    (∀ rs, MinorVersion.parse (Tok.group .paren [Tok.floatLit "1.2"] :: rs) =
      .ok ⟨1, 2⟩ rs)
  ∧ (StructBody.parse 4 false [Tok.group .brace
        [Tok.punct '@', Tok.ident "add", Tok.group .paren [Tok.floatLit "1.2"],
         Tok.ident "x", Tok.punct ':', Tok.ident "u8", Tok.punct ',']] =
      .ok (.items [.field ⟨some ⟨1, 2⟩, 0, "x", .primitive 0 .uint8⟩]) [])
  ∧ (Union.parse 2 ⟨7⟩
        [Tok.ident "U", Tok.group .brace
          [Tok.punct '@', Tok.ident "add", Tok.group .paren [Tok.floatLit "1.2"],
           Tok.ident "V", Tok.punct ',']] =
      .err "@add directive is not allowed for union fields")
  ∧ (Enum.parse 3 ⟨7⟩
        [Tok.ident "E", Tok.group .brace
          [Tok.punct '@', Tok.ident "rem", Tok.group .paren [Tok.floatLit "1.2"],
           Tok.ident "M", Tok.punct ',']] =
      .ok ⟨⟨7⟩, 0, "E", [.field ⟨some ⟨1, 2⟩, 0, "M", none⟩]⟩ []) := by
  have h0 : ∀ rs, MinorVersion.parse (Tok.group .paren [Tok.floatLit "1.2"] :: rs) =
      .ok ⟨1, 2⟩ rs := fun _ => rfl
  refine ⟨h0, ?_, ?_, ?_⟩
  · exact (c1_minor_directive_policy 0 "1.2" 1 2 ⟨7⟩ h0).1
  · exact (c1_minor_directive_policy 0 "1.2" 1 2 ⟨7⟩ h0).2.2.2.2.2.2.2.2.2.1
      [Tok.group .paren [Tok.floatLit "1.2"], Tok.ident "V", Tok.punct ','] []
  · exact (c1_minor_directive_policy 0 "1.2" 1 2 ⟨7⟩ h0).2.2.2.2.2.2.2.2.2.2.1 []

/-- C5 counterexample: `Foo` is a valid element type, yet `[Foo:u8]` is a
syntax error — the named-type parser consumes the `:` as the start of a
`::` path — so the map form does not parse for every valid element type. -/
theorem c5_counterexample :
    (FieldType.parse 2 [Tok.ident "Foo"] = .ok (.type 0 "Foo" none none) [])
  ∧ (FieldType.parse 5 [Tok.group .bracket
        [Tok.ident "Foo", Tok.punct ':', Tok.ident "u8"]] = .err "expected `:`") :=
  ⟨rfl, rfl⟩

/-- C5 helper: at a bare single-segment named type, a following `:` is
consumed as the start of a `::` path, so that anything other than a second
`:` is a syntax error. -/
theorem namedType_colon_stuck (f : Nat) (nm : String) (vrest : List Tok)
    (h1 : nm ∉ rustKeywords) (h2 : primOfString nm = none)
    (h3 : vrest.head? ≠ some (Tok.punct ':')) :
    FieldType.parse (f+1) (Tok.ident nm :: Tok.punct ':' :: vrest) =
      .err "expected `:`" := by
  simp only [FieldType.parse, h1, h2, if_false]
  rcases vrest with _ | ⟨t0, vr⟩
  · rfl
  · cases t0
    case punct c =>
      have hc : c ≠ ':' := by
        intro hcc
        subst hcc
        exact h3 rfl
      split
      · rename_i heq
        injection heq with ha hb
        injection ha with hc2
        exact absurd hc2 hc
      · rfl
    all_goals rfl

/-- C5 helper: a failing element parse fails the whole bracket form. -/
theorem bracket_elem_err (f : Nat) (inner rest : List Tok) (e : String)
    (h : FieldType.parse f inner = .err e) :
    FieldType.parse (f+1) (Tok.group .bracket inner :: rest) = .err e := by
  simp only [FieldType.parse, h, PRes.bind_err]

/-- C5 amended: `[T]` yields `List T` and `[T;N]` yields `Array T N`
whenever the element parse consumes exactly `T`; `[T:V]` yields `Map T V`
provided the parse of `T` leaves the `:` unconsumed; any other token after
the parsed element type is a syntax error; and when `T` ends in a bare
single-segment named type with no pinned version the `:` of the map form is
consumed as the start of a `::` path, a syntax error. -/
theorem c5_bracket_forms :
    (∀ (f : Nat) (inner : List Tok) (T : FieldType) (rest : List Tok),
      FieldType.parse f inner = .ok T [] →
      FieldType.parse (f+1) (Tok.group .bracket inner :: rest) =
        .ok (.list 0 T) rest)
  ∧ (∀ (f : Nat) (inner : List Tok) (T : FieldType) (s : String) (n : Nat)
        (rest : List Tok),
      FieldType.parse f inner = .ok T [Tok.punct ';', Tok.intLit s] →
      parse_int_lit s "invalid array size literal" = .ok n →
      FieldType.parse (f+1) (Tok.group .bracket inner :: rest) =
        .ok (.array 0 T n) rest)
  ∧ (∀ (f : Nat) (inner vts : List Tok) (T V : FieldType) (rest : List Tok),
      FieldType.parse f inner = .ok T (Tok.punct ':' :: vts) →
      FieldType.parse f vts = .ok V [] →
      FieldType.parse (f+1) (Tok.group .bracket inner :: rest) =
        .ok (.map 0 T V) rest)
  ∧ (∀ (f : Nat) (inner : List Tok) (T : FieldType) (tok : Tok)
        (ir rest : List Tok),
      FieldType.parse f inner = .ok T (tok :: ir) →
      tok ≠ .punct ';' → tok ≠ .punct ':' →
      FieldType.parse (f+1) (Tok.group .bracket inner :: rest) =
        .err "expected `;` or `:`")
  ∧ (∀ (f : Nat) (nm : String) (vrest rest : List Tok),
      nm ∉ rustKeywords → primOfString nm = none →
      vrest.head? ≠ some (Tok.punct ':') →
      FieldType.parse (f+2)
          (Tok.group .bracket (Tok.ident nm :: Tok.punct ':' :: vrest) :: rest) =
        .err "expected `:`") := by
  refine ⟨?_, ?_, ?_, ?_, ?_⟩
  · intro f inner T rest h
    simp only [FieldType.parse, h, PRes.bind_ok]
  · intro f inner T s n rest h h2
    simp [FieldType.parse, h, h2]
  · intro f inner vts T V rest h h2
    simp [FieldType.parse, h, h2]
  · intro f inner T tok ir rest h h1 h2
    simp only [FieldType.parse, h, PRes.bind_ok]
    split
    · rename_i heq
      exact absurd (congrArg List.head? heq) (by simp)
    · rename_i heq
      have : tok = Tok.punct ';' := by
        have h3 := congrArg List.head? heq
        simpa using h3
      exact absurd this h1
    · rename_i heq
      have : tok = Tok.punct ':' := by
        have h3 := congrArg List.head? heq
        simpa using h3
      exact absurd this h2
    · rfl
  · intro f nm vrest rest h1 h2 h3
    exact bracket_elem_err (f+1) _ rest _
      (namedType_colon_stuck f nm vrest h1 h2 h3)

theorem c5_bracket_forms_witness :
    (FieldType.parse 2 [Tok.group .bracket [Tok.ident "u8"]] =
      .ok (.list 0 (.primitive 0 .uint8)) [])
  ∧ (FieldType.parse 2 [Tok.group .bracket
        [Tok.ident "u8", Tok.punct ';', Tok.intLit "3"]] =
      .ok (.array 0 (.primitive 0 .uint8) 3) [])
  ∧ (FieldType.parse 2 [Tok.group .bracket
        [Tok.ident "u8", Tok.punct ':', Tok.ident "bool"]] =
      .ok (.map 0 (.primitive 0 .uint8) (.primitive 0 .boolean)) [])
  ∧ (FieldType.parse 2 [Tok.group .bracket [Tok.ident "u8", Tok.punct ',']] =
      .err "expected `;` or `:`")
  ∧ (FieldType.parse 3 [Tok.group .bracket
        [Tok.ident "Foo", Tok.punct ':', Tok.ident "u8"]] = .err "expected `:`") := by
  refine ⟨?_, ?_, ?_, ?_, ?_⟩
  · exact c5_bracket_forms.1 1 [Tok.ident "u8"] (.primitive 0 .uint8) [] rfl
  · exact c5_bracket_forms.2.1 1 [Tok.ident "u8", Tok.punct ';', Tok.intLit "3"]
      (.primitive 0 .uint8) "3" 3 [] rfl rfl
  · exact c5_bracket_forms.2.2.1 1
      [Tok.ident "u8", Tok.punct ':', Tok.ident "bool"] [Tok.ident "bool"]
      (.primitive 0 .uint8) (.primitive 0 .boolean) [] rfl rfl
  · exact c5_bracket_forms.2.2.2.1 1 [Tok.ident "u8", Tok.punct ',']
      (.primitive 0 .uint8) (Tok.punct ',') [] [] rfl
      (by intro h; injection h with h2; exact absurd h2 (by decide))
      (by intro h; injection h with h2; exact absurd h2 (by decide))
  · exact c5_bracket_forms.2.2.2.2 1 "Foo" [Tok.ident "u8"] [] (by decide) rfl
      (by intro h; injection h with h2; injection h2)

/-- C6: `obj '(' kind ')' Name Body` dispatches on the kind keyword to the
matching `Object` variant and body grammar, and a body whose shape does not
match the kind keyword (here `obj(enum)` with a named-fields body) is a
syntax error. -/
theorem c6_obj_kind_dispatch :
    (∀ (f : Nat) (v : MajorVersion) (extra rest : List Tok),
      Object.parse (f+1) v (Tok.group .paren (Tok.ident "struct" :: extra) :: rest) =
        (Struct.parse f v rest).map Object.struct)
  ∧ (∀ (f : Nat) (v : MajorVersion) (extra rest : List Tok),
      Object.parse (f+1) v (Tok.group .paren (Tok.ident "union" :: extra) :: rest) =
        (Union.parse f v rest).map Object.union)
  ∧ (∀ (f : Nat) (v : MajorVersion) (extra rest : List Tok),
      Object.parse (f+1) v (Tok.group .paren (Tok.ident "enum" :: extra) :: rest) =
        (Enum.parse f v rest).map Object.enum)
  ∧ (Object.parse 5 ⟨1⟩ [Tok.group .paren [Tok.ident "struct"],
        Tok.ident "P", Tok.punct ';'] = .ok (.struct ⟨⟨1⟩, 0, "P", .unit⟩) [])
  ∧ (Object.parse 5 ⟨1⟩ [Tok.group .paren [Tok.ident "union"],
        Tok.ident "P", Tok.group .brace []] = .ok (.union ⟨⟨1⟩, 0, "P", []⟩) [])
  ∧ (Object.parse 5 ⟨1⟩ [Tok.group .paren [Tok.ident "enum"],
        Tok.ident "P", Tok.group .brace []] = .ok (.enum ⟨⟨1⟩, 0, "P", []⟩) [])
  ∧ (Object.parse 5 ⟨1⟩ [Tok.group .paren [Tok.ident "enum"], Tok.ident "P",
        Tok.group .brace [Tok.ident "x", Tok.punct ':', Tok.ident "u8", Tok.punct ',']] =
      .err "expected `,`") :=
  ⟨fun _ _ _ _ => rfl, fun _ _ _ _ => rfl, fun _ _ _ _ => rfl,
   rfl, rfl, rfl, rfl⟩

theorem c6_obj_kind_dispatch_witness :
    Object.parse 4 ⟨2⟩
        (Tok.group .paren [Tok.ident "struct"] :: [Tok.ident "Q", Tok.punct ';']) =
      (Struct.parse 3 ⟨2⟩ [Tok.ident "Q", Tok.punct ';']).map Object.struct :=
  c6_obj_kind_dispatch.1 3 ⟨2⟩ [] [Tok.ident "Q", Tok.punct ';']

/-- C7 helper: the adjustment loop of `Include::parse` maps token-level
adjustments to `IncludeItem`s in source order. -/
theorem parseIncludeItems_adjToks (l : List (Bool × String))
    (h : ∀ p ∈ l, p.2 ∉ rustKeywords) :
    parseIncludeItems (adjToks l) = .ok (adjItems l) [] := by
  induction l with
  | nil => rfl
  | cons p l ih =>
    obtain ⟨isAdd, nm⟩ := p
    have hnm : nm ∉ rustKeywords := h (isAdd, nm) (List.mem_cons_self _ _)
    have ihl := ih (fun q hq => h q (List.mem_cons_of_mem _ hq))
    cases isAdd <;>
      simp [adjToks, adjItems, parseIncludeItems, hnm, ihl, PRes.map]

/-- C7: an `Include` item — `'@' ver '(' N ')'` with an optional braced
adjustment list — accepts both `@add(name)` and `@rem(name)` adjustments in
every container, independently of the container's add/rem policy flag, and
yields `Include` with the referenced major version and the adjustments in
source order (empty when the braces are absent). -/
theorem c7_include_unconditional
    (flag : Bool) (inv : String) (vt : String) (N : Nat)
    (l : List (Bool × String))
    (hv : fromStrRadix10 65535 vt = some N)
    (hl : ∀ p ∈ l, p.2 ∉ rustKeywords) :
    (∀ rest, parse_include_or_minor_version flag inv
        (Tok.punct '@' :: Tok.ident "ver" :: Tok.group .paren [Tok.intLit vt] ::
          Tok.group .brace (adjToks l) :: rest) =
      .ok (some ⟨⟨N⟩, adjItems l⟩, none) rest)
  ∧ (∀ rest, parse_include_or_minor_version flag inv
        (Tok.punct '@' :: Tok.ident "ver" :: Tok.group .paren [Tok.intLit vt] ::
          Tok.punct ',' :: rest) =
      .ok (some ⟨⟨N⟩, []⟩, none) (Tok.punct ',' :: rest))
  ∧ (∀ f, StructItem.parse_all (f+2) inv
        [Tok.punct '@', Tok.ident "ver", Tok.group .paren [Tok.intLit vt],
         Tok.group .brace (adjToks l), Tok.punct ','] =
      .ok [.incl ⟨⟨N⟩, adjItems l⟩] [])
  ∧ (∀ f, unionItemsLoop (f+2)
        [Tok.punct '@', Tok.ident "ver", Tok.group .paren [Tok.intLit vt],
         Tok.group .brace (adjToks l), Tok.punct ','] =
      .ok [.incl ⟨⟨N⟩, adjItems l⟩] []) := by
  have hitems := parseIncludeItems_adjToks l hl
  refine ⟨?_, ?_, ?_, ?_⟩
  · intro rest
    simp [parse_include_or_minor_version, Include.parse, MajorVersion.parse,
      hv, hitems, PRes.bind, PRes.map]
  · intro rest
    simp [parse_include_or_minor_version, Include.parse, MajorVersion.parse,
      hv, PRes.bind, PRes.map]
  · intro f
    simp [StructItem.parse_all, parse_include_or_minor_version, Include.parse,
      MajorVersion.parse, hv, hitems, PRes.bind, PRes.map]
  · intro f
    simp [unionItemsLoop, parse_include_or_minor_version, Include.parse,
      MajorVersion.parse, hv, hitems, PRes.bind, PRes.map]

theorem c7_include_unconditional_witness :
    (fromStrRadix10 65535 "1" = some 1)
  ∧ (∀ p ∈ [(true, "a"), (false, "b")], (p : Bool × String).2 ∉ rustKeywords)
  ∧ (StructItem.parse_all 2 "struct fields"
        [Tok.punct '@', Tok.ident "ver", Tok.group .paren [Tok.intLit "1"],
         Tok.group .brace (adjToks [(true, "a"), (false, "b")]), Tok.punct ','] =
      .ok [.incl ⟨⟨1⟩, [.add "a", .rem "b"]⟩] [])
  ∧ (unionItemsLoop 2
        [Tok.punct '@', Tok.ident "ver", Tok.group .paren [Tok.intLit "1"],
         Tok.group .brace (adjToks [(true, "a"), (false, "b")]), Tok.punct ','] =
      .ok [.incl ⟨⟨1⟩, [.add "a", .rem "b"]⟩] []) := by
  have hv : fromStrRadix10 65535 "1" = some 1 := rfl
  have hl : ∀ p ∈ [(true, "a"), (false, "b")], (p : Bool × String).2 ∉ rustKeywords := by
    decide
  refine ⟨hv, hl, ?_, ?_⟩
  · exact (c7_include_unconditional true "struct fields" "1" 1
      [(true, "a"), (false, "b")] hv hl).2.2.1 0
  · exact (c7_include_unconditional false "union fields" "1" 1
      [(true, "a"), (false, "b")] hv hl).2.2.2 0

/-- C10: the unit struct body is terminated by `;` at a declaration — the
`;` is consumed by the body parse itself — and by `,` for a union variant —
the `,` is left for the item loop, and a `;` there is a syntax error; in
both positions braces give named fields and parentheses a tuple. -/
theorem c10_unit_body_terminators :
    (∀ f rest, StructBody.parse (f+1) false (Tok.punct ';' :: rest) =
      .ok .unit rest)
  ∧ (∀ f rest, StructBody.parse (f+1) true (Tok.punct ',' :: rest) =
      .ok .unit (Tok.punct ',' :: rest))
  ∧ (∀ f rest, StructBody.parse (f+1) true (Tok.punct ';' :: rest) =
      .err "expected curly braces, parentheses or `,`")
  ∧ (∀ f rest, StructBody.parse (f+1) false (Tok.punct ',' :: rest) =
      .err "expected curly braces, parentheses or `;`")
  ∧ (∀ f v rest, Struct.parse (f+2) v (Tok.ident "P" :: Tok.punct ';' :: rest) =
      .ok ⟨v, 0, "P", .unit⟩ rest)
  ∧ (∀ f, unionItemsLoop (f+3) [Tok.ident "V", Tok.punct ','] =
      .ok [.field ⟨none, 0, "V", .unit⟩] [])
  ∧ (∀ f v outer, Union.parse (f+4) v
        (Tok.ident "U" :: Tok.group .brace [Tok.ident "V", Tok.punct ';'] :: outer) =
      .err "expected curly braces, parentheses or `,`")
  ∧ (∀ (b : Bool) (f : Nat), StructBody.parse (f+4) b
        [Tok.group .brace [Tok.ident "x", Tok.punct ':', Tok.ident "u8", Tok.punct ',']] =
      .ok (.items [.field ⟨none, 0, "x", .primitive 0 .uint8⟩]) [])
  ∧ (∀ (b : Bool) (f : Nat) (rest : List Tok), StructBody.parse (f+4) b
        (Tok.group .paren [Tok.ident "u8"] :: rest) =
      .ok (.tuple (.mk [.field (.mk none (.primitive 0 .uint8))])) rest) :=
  ⟨fun _ _ => rfl, fun _ _ => rfl, fun _ _ => rfl, fun _ _ => rfl,
   fun _ _ _ => rfl, fun _ => rfl, fun _ _ _ => rfl, fun _ _ => rfl,
   fun _ _ _ => rfl⟩

theorem c10_unit_body_terminators_witness :
    StructBody.parse 1 false [Tok.punct ';'] = .ok .unit []
  ∧ StructBody.parse 1 true [Tok.punct ','] = .ok .unit [Tok.punct ','] :=
  ⟨c10_unit_body_terminators.1 0 [], c10_unit_body_terminators.2.1 0 []⟩

/-- C2 helper: one `use nm;` import step of the top-level loop. -/
theorem schemeLoop_use_step (g : Nat) (name nm : String)
    (uses : List Use) (types : List TypeDef) (rest : List Tok) :
    schemeLoop (g+1) name uses types
        (Tok.ident "use" :: Tok.ident nm :: Tok.punct ';' :: rest) =
      schemeLoop g name (uses ++ [⟨[nm], none⟩]) types rest := rfl

set_option maxHeartbeats 1000000 in
/-- C2 helper: one `@ver(N) struct nm;` declaration step of the top-level
loop. -/
theorem schemeLoop_decl_step (g : Nat) (name nm vt : String) (N : Nat)
    (uses : List Use) (types : List TypeDef) (rest : List Tok)
    (hnm : nm ∉ rustKeywords) (hN : fromStrRadix10 65535 vt = some N) :
    schemeLoop (g+3) name uses types
        (Tok.punct '@' :: Tok.ident "ver" :: Tok.group .paren [Tok.intLit vt] ::
          Tok.ident "struct" :: Tok.ident nm :: Tok.punct ';' :: rest) =
      schemeLoop (g+2) name uses (types ++ [.struct ⟨⟨N⟩, 0, nm, .unit⟩]) rest := by
  simp [schemeLoop, MajorVersion.parse, hN, Struct.parse, hnm, StructBody.parse,
    PRes.bind, PRes.map]

/-- C2 helper: the top-level loop accepts `use` imports and type
declarations in any interleaving, appending each to its list in order. -/
theorem schemeLoop_topToks (items : List TopItem) :
    ∀ (f : Nat) (name : String) (uses : List Use) (types : List TypeDef),
    (∀ i ∈ items, i.wf) → items.length + 2 ≤ f →
    schemeLoop f name uses types (topToks items) =
      .ok ⟨name, uses ++ topUses items, types ++ topTypes items⟩ [] := by
  induction items with
  | nil =>
    intro f name uses types _ hf
    obtain ⟨g, rfl⟩ : ∃ g, f = g + 1 := ⟨f - 1, by omega⟩
    simp [topToks, schemeLoop, topUses, topTypes]
  | cons i is ih =>
    intro f name uses types hwf hf
    have hiwf := hwf i (List.mem_cons_self _ _)
    have hiswf : ∀ j ∈ is, j.wf := fun j hj => hwf j (List.mem_cons_of_mem _ hj)
    have hlen : is.length + 3 ≤ f := by
      simpa [List.length_cons, Nat.add_assoc] using hf
    cases i with
    | use1 nm =>
      obtain ⟨g, rfl⟩ : ∃ g, f = g + 1 := ⟨f - 1, by omega⟩
      simp only [topToks, TopItem.toks, List.cons_append, List.nil_append]
      rw [schemeLoop_use_step]
      rw [ih g name _ _ hiswf (by omega)]
      simp [topUses, topTypes]
    | decl nm vt =>
      obtain ⟨hnm, hvt⟩ := hiwf
      obtain ⟨N, hN⟩ := Option.isSome_iff_exists.mp hvt
      obtain ⟨g, rfl⟩ : ∃ g, f = g + 3 := ⟨f - 3, by omega⟩
      simp only [topToks, TopItem.toks, List.cons_append, List.nil_append]
      rw [schemeLoop_decl_step g name nm vt N uses types _ hnm hN]
      rw [ih (g+2) name _ _ hiswf (by omega)]
      simp [topUses, topTypes, hN, List.append_assoc]

/-- C2 counterexample: the code accepts a `use` import written after a type
declaration (the claim says this is not part of the accepted language), and
it also accepts a final import that reaches end of input without its
terminating `;`. -/
theorem c2_counterexample :
    (Scheme.parse 20
        [Tok.ident "sch", Tok.strLit "s", Tok.punct ';',
         Tok.punct '@', Tok.ident "ver", Tok.group .paren [Tok.intLit "1"],
         Tok.ident "struct", Tok.ident "P", Tok.punct ';',
         Tok.ident "use", Tok.ident "foo", Tok.punct ';'] =
      .ok ⟨"s", [⟨["foo"], none⟩], [.struct ⟨⟨1⟩, 0, "P", .unit⟩]⟩ [])
  ∧ (Scheme.parse 20
        [Tok.ident "sch", Tok.strLit "s", Tok.punct ';',
         Tok.ident "use", Tok.ident "foo", Tok.punct ':', Tok.punct ':',
         Tok.ident "bar"] =
      .ok ⟨"s", [⟨["foo", "bar"], none⟩], []⟩ []) :=
  ⟨rfl, rfl⟩

/-- C2 amended: the parse accepts the header `'sch' StringLiteral ';'`, then
`use` imports and type declarations freely interleaved until the input is
exhausted — so imports may also follow type declarations, all collected
into one imports list in source order — a final import may end at end of
input without `;`, and any other leading token, at the header or in the
loop, is a syntax error. -/
theorem c2_scheme_shape :
    (∀ (f : Nat) (name : String) (items : List TopItem),
      (∀ i ∈ items, i.wf) → items.length + 3 ≤ f →
      Scheme.parse f
          (Tok.ident "sch" :: Tok.strLit name :: Tok.punct ';' :: topToks items) =
        .ok ⟨name, topUses items, topTypes items⟩ [])
  ∧ (∀ (f : Nat) (t : Tok) (ts : List Tok), t ≠ Tok.ident "sch" →
      Scheme.parse (f+1) (t :: ts) = .err "expected `sch`")
  ∧ (∀ (f : Nat) (name : String) (uses : List Use) (types : List TypeDef)
        (t : Tok) (ts : List Tok),
      t ≠ Tok.ident "use" → t ≠ Tok.punct '@' →
      schemeLoop (f+1) name uses types (t :: ts) = .err "expected `use` or `@`")
  ∧ (Scheme.parse 20
        [Tok.ident "sch", Tok.strLit "s", Tok.punct ';',
         Tok.ident "use", Tok.ident "foo", Tok.punct ':', Tok.punct ':',
         Tok.ident "bar"] =
      .ok ⟨"s", [⟨["foo", "bar"], none⟩], []⟩ []) := by
  refine ⟨?_, ?_, ?_, rfl⟩
  · intro f name items hwf hf
    obtain ⟨g, rfl⟩ : ∃ g, f = g + 1 := ⟨f - 1, by omega⟩
    have h := schemeLoop_topToks items g name [] [] hwf (by omega)
    simp only [Scheme.parse]
    rw [h]
    simp
  · intro f t ts ht
    simp only [Scheme.parse]
    split
    · rename_i heq
      have : t = Tok.ident "sch" := by
        have h3 := congrArg List.head? heq
        simpa using h3
      exact absurd this ht
    · rfl
  · intro f name uses types t ts ht1 ht2
    simp only [schemeLoop]
    split
    · rename_i heq
      exact absurd (congrArg List.head? heq) (by simp)
    · rename_i heq
      have : t = Tok.ident "use" := by
        have h3 := congrArg List.head? heq
        simpa using h3
      exact absurd this ht1
    · rename_i heq
      have : t = Tok.punct '@' := by
        have h3 := congrArg List.head? heq
        simpa using h3
      exact absurd this ht2
    · rfl

theorem c2_scheme_shape_witness :
    ((∀ i ∈ [TopItem.decl "P" "1", TopItem.use1 "foo"], i.wf)
  ∧ Scheme.parse 5
        (Tok.ident "sch" :: Tok.strLit "s" :: Tok.punct ';' ::
          topToks [TopItem.decl "P" "1", TopItem.use1 "foo"]) =
      .ok ⟨"s", [⟨["foo"], none⟩], [.struct ⟨⟨1⟩, 0, "P", .unit⟩]⟩ [])
  ∧ Scheme.parse 1 [Tok.punct '@'] = .err "expected `sch`"
  ∧ schemeLoop 1 "s" [] [] [Tok.ident "sch"] = .err "expected `use` or `@`" := by
  have hwf : ∀ i ∈ [TopItem.decl "P" "1", TopItem.use1 "foo"], i.wf := by
    intro i hi
    simp only [List.mem_cons, List.mem_singleton] at hi
    rcases hi with rfl | rfl | h
    · exact ⟨by decide, rfl⟩
    · exact trivial
    · cases h
  refine ⟨⟨hwf, ?_⟩, ?_, ?_⟩
  · exact c2_scheme_shape.1 5 "s" [TopItem.decl "P" "1", TopItem.use1 "foo"]
      hwf (by decide)
  · exact c2_scheme_shape.2.1 0 (Tok.punct '@') [] (by intro h; injection h)
  · exact c2_scheme_shape.2.2.1 0 "s" [] [] (Tok.ident "sch") []
      (by intro h; injection h with h2; exact absurd h2 (by decide))
      (by intro h; injection h)

/-- C8: the first error raised anywhere is forwarded unchanged to the
top-level parse and aborts the unit — but "a complete AST or a single
terminal error and no other outcome" fails: a dotless float minor-version
literal reaches the `unwrap` inside `MinorVersion::parse` and the whole
parse panics instead of returning an error. -/
theorem c8_outcomes :
    (Scheme.parse 20
        [Tok.ident "sch", Tok.strLit "s", Tok.punct ';',
         Tok.punct '@', Tok.ident "ver", Tok.group .paren [Tok.intLit "1"],
         Tok.ident "enum", Tok.ident "E",
         Tok.group .brace [Tok.punct '@', Tok.ident "rem",
           Tok.group .paren [Tok.floatLit "1e3"], Tok.ident "Z", Tok.punct ',']] =
      .panic)
  ∧ (Scheme.parse 20
        [Tok.ident "sch", Tok.strLit "s", Tok.punct ';',
         Tok.punct '@', Tok.ident "ver", Tok.group .paren [Tok.intLit "1"],
         Tok.ident "struct", Tok.ident "P",
         Tok.group .brace [Tok.punct '@', Tok.ident "rem",
           Tok.group .paren [Tok.floatLit "1.1"], Tok.ident "x", Tok.punct ':',
           Tok.ident "u8", Tok.punct ',']] =
      .err "@rem directive is not allowed for struct fields")
  ∧ (Scheme.parse 20
        [Tok.ident "sch", Tok.strLit "s", Tok.punct ';',
         Tok.punct '@', Tok.ident "ver", Tok.group .paren [Tok.intLit "65536"],
         Tok.ident "struct", Tok.ident "P", Tok.punct ';'] =
      .err "major version must be valid u16 value") :=
  ⟨rfl, rfl, rfl⟩

/-! C9 machinery: the equality functions agree with equality of span-scrubbed
values, proved by strong induction on size for the recursive `FieldType`
family and directly for the stratified node types above it. -/

theorem ftfam_beq_iff : ∀ n : Nat,
    (∀ a b : FieldType, sizeOf a ≤ n →
      (FieldType.beq a b = true ↔ FieldType.scrub a = FieldType.scrub b))
  ∧ (∀ a b : TupleT, sizeOf a ≤ n →
      (TupleT.beq a b = true ↔ TupleT.scrub a = TupleT.scrub b))
  ∧ (∀ a b : List TupleItem, sizeOf a ≤ n →
      (tupleItemsBeq a b = true ↔ tupleItemsScrub a = tupleItemsScrub b))
  ∧ (∀ a b : TupleItem, sizeOf a ≤ n →
      (TupleItem.beq a b = true ↔ TupleItem.scrub a = TupleItem.scrub b))
  ∧ (∀ a b : TupleField, sizeOf a ≤ n →
      (TupleField.beq a b = true ↔ TupleField.scrub a = TupleField.scrub b)) := by
  intro n
  induction n with
  | zero =>
    refine ⟨?_, ?_, ?_, ?_, ?_⟩ <;> intro a b h <;> exfalso <;>
      cases a <;> simp at h
  | succ n ih =>
    obtain ⟨ihF, ihT, ihL, ihI, ihTF⟩ := ih
    refine ⟨?_, ?_, ?_, ?_, ?_⟩
    · intro a b h
      cases a with
      | primitive sp p =>
        cases b <;> simp [FieldType.beq, FieldType.scrub, beq_iff_eq]
      | type sp i e v =>
        cases b <;> simp [FieldType.beq, FieldType.scrub, beq_iff_eq, and_assoc]
      | optional sp t =>
        have ht : ∀ b2, FieldType.beq t b2 = true ↔
            FieldType.scrub t = FieldType.scrub b2 :=
          fun b2 => ihF t b2 (by simp at h; omega)
        cases b <;> simp [FieldType.beq, FieldType.scrub, ht]
      | reference sp t =>
        have ht : ∀ b2, FieldType.beq t b2 = true ↔
            FieldType.scrub t = FieldType.scrub b2 :=
          fun b2 => ihF t b2 (by simp at h; omega)
        cases b <;> simp [FieldType.beq, FieldType.scrub, ht]
      | array sp t sz =>
        have ht : ∀ b2, FieldType.beq t b2 = true ↔
            FieldType.scrub t = FieldType.scrub b2 :=
          fun b2 => ihF t b2 (by simp at h; omega)
        cases b <;> simp [FieldType.beq, FieldType.scrub, ht, beq_iff_eq]
      | list sp t =>
        have ht : ∀ b2, FieldType.beq t b2 = true ↔
            FieldType.scrub t = FieldType.scrub b2 :=
          fun b2 => ihF t b2 (by simp at h; omega)
        cases b <;> simp [FieldType.beq, FieldType.scrub, ht]
      | map sp k v =>
        have hk : ∀ b2, FieldType.beq k b2 = true ↔
            FieldType.scrub k = FieldType.scrub b2 :=
          fun b2 => ihF k b2 (by simp at h; omega)
        have hv : ∀ b2, FieldType.beq v b2 = true ↔
            FieldType.scrub v = FieldType.scrub b2 :=
          fun b2 => ihF v b2 (by simp at h; omega)
        cases b <;> simp [FieldType.beq, FieldType.scrub, hk, hv]
      | tuple sp t =>
        have ht : ∀ b2, TupleT.beq t b2 = true ↔
            TupleT.scrub t = TupleT.scrub b2 :=
          fun b2 => ihT t b2 (by simp at h; omega)
        cases b <;> simp [FieldType.beq, FieldType.scrub, ht]
    · intro a b h
      obtain ⟨is1⟩ := a
      obtain ⟨is2⟩ := b
      have hl : ∀ b2, tupleItemsBeq is1 b2 = true ↔
          tupleItemsScrub is1 = tupleItemsScrub b2 :=
        fun b2 => ihL is1 b2 (by simp at h; omega)
      simp [TupleT.beq, TupleT.scrub, hl]
    · intro a b h
      cases a with
      | nil => cases b <;> simp [tupleItemsBeq, tupleItemsScrub]
      | cons x xs =>
        have hx : ∀ b2, TupleItem.beq x b2 = true ↔
            TupleItem.scrub x = TupleItem.scrub b2 :=
          fun b2 => ihI x b2 (by simp at h; omega)
        have hxs : ∀ b2, tupleItemsBeq xs b2 = true ↔
            tupleItemsScrub xs = tupleItemsScrub b2 :=
          fun b2 => ihL xs b2 (by simp at h; omega)
        cases b <;> simp [tupleItemsBeq, tupleItemsScrub, hx, hxs]
    · intro a b h
      cases a with
      | incl i =>
        cases b <;> simp [TupleItem.beq, TupleItem.scrub, beq_iff_eq]
      | field fd =>
        have hf : ∀ b2, TupleField.beq fd b2 = true ↔
            TupleField.scrub fd = TupleField.scrub b2 :=
          fun b2 => ihTF fd b2 (by simp at h; omega)
        cases b <;> simp [TupleItem.beq, TupleItem.scrub, hf]
    · intro a b h
      obtain ⟨v, t⟩ := a
      obtain ⟨v2, t2⟩ := b
      have ht : ∀ b2, FieldType.beq t b2 = true ↔
          FieldType.scrub t = FieldType.scrub b2 :=
        fun b2 => ihF t b2 (by simp at h; omega)
      simp [TupleField.beq, TupleField.scrub, ht, beq_iff_eq]

theorem fieldTypeBeqIff (a b : FieldType) :
    FieldType.beq a b = true ↔ FieldType.scrub a = FieldType.scrub b :=
  (ftfam_beq_iff (sizeOf a)).1 a b (le_refl _)

theorem tupleTBeqIff (a b : TupleT) :
    TupleT.beq a b = true ↔ TupleT.scrub a = TupleT.scrub b :=
  (ftfam_beq_iff (sizeOf a)).2.1 a b (le_refl _)

theorem listBeq_iff {α β : Type} (f : α → α → Bool) (g : α → β)
    (h : ∀ a b, f a b = true ↔ g a = g b) :
    ∀ as bs : List α, listBeq f as bs = true ↔ as.map g = bs.map g := by
  intro as
  induction as with
  | nil => intro bs; cases bs <;> simp [listBeq]
  | cons x xs ih => intro bs; cases bs <;> simp [listBeq, h, ih]

theorem optBeq_iff {α β : Type} (f : α → α → Bool) (g : α → β)
    (h : ∀ a b, f a b = true ↔ g a = g b) :
    ∀ a b : Option α, optBeq f a b = true ↔ a.map g = b.map g := by
  intro a b
  cases a <;> cases b <;> simp [optBeq, h]

theorem structFieldBeqIff (a b : StructField) :
    StructField.beq a b = true ↔ StructField.scrub a = StructField.scrub b := by
  obtain ⟨v, sp, nm, ft⟩ := a
  obtain ⟨v2, sp2, nm2, ft2⟩ := b
  simp [StructField.beq, StructField.scrub, fieldTypeBeqIff, beq_iff_eq,
    and_assoc]

theorem structItemBeqIff (a b : StructItem) :
    StructItem.beq a b = true ↔ StructItem.scrub a = StructItem.scrub b := by
  cases a <;> cases b <;>
    simp [StructItem.beq, StructItem.scrub, structFieldBeqIff, beq_iff_eq]

theorem structBodyBeqIff (a b : StructBody) :
    StructBody.beq a b = true ↔ StructBody.scrub a = StructBody.scrub b := by
  cases a <;> cases b <;>
    simp [StructBody.beq, StructBody.scrub, tupleTBeqIff,
      listBeq_iff StructItem.beq StructItem.scrub structItemBeqIff]

theorem structBeqIff (a b : Struct) :
    Struct.beq a b = true ↔ Struct.scrub a = Struct.scrub b := by
  obtain ⟨v, sp, nm, body⟩ := a
  obtain ⟨v2, sp2, nm2, body2⟩ := b
  simp [Struct.beq, Struct.scrub, structBodyBeqIff, beq_iff_eq, and_assoc]

theorem unionFieldBeqIff (a b : UnionField) :
    UnionField.beq a b = true ↔ UnionField.scrub a = UnionField.scrub b := by
  obtain ⟨v, sp, nm, body⟩ := a
  obtain ⟨v2, sp2, nm2, body2⟩ := b
  simp [UnionField.beq, UnionField.scrub, structBodyBeqIff, beq_iff_eq,
    and_assoc]

theorem unionItemBeqIff (a b : UnionItem) :
    UnionItem.beq a b = true ↔ UnionItem.scrub a = UnionItem.scrub b := by
  cases a <;> cases b <;>
    simp [UnionItem.beq, UnionItem.scrub, unionFieldBeqIff, beq_iff_eq]

theorem unionBeqIff (a b : Union) :
    Union.beq a b = true ↔ Union.scrub a = Union.scrub b := by
  obtain ⟨v, sp, nm, items⟩ := a
  obtain ⟨v2, sp2, nm2, items2⟩ := b
  simp [Union.beq, Union.scrub, beq_iff_eq, and_assoc,
    listBeq_iff UnionItem.beq UnionItem.scrub unionItemBeqIff]

theorem enumFieldBeqIff (a b : EnumField) :
    EnumField.beq a b = true ↔ EnumField.scrub a = EnumField.scrub b := by
  obtain ⟨v, sp, nm, val⟩ := a
  obtain ⟨v2, sp2, nm2, val2⟩ := b
  simp [EnumField.beq, EnumField.scrub, beq_iff_eq, and_assoc]

theorem enumItemBeqIff (a b : EnumItem) :
    EnumItem.beq a b = true ↔ EnumItem.scrub a = EnumItem.scrub b := by
  cases a <;> cases b <;>
    simp [EnumItem.beq, EnumItem.scrub, enumFieldBeqIff, beq_iff_eq]

theorem enumBeqIff (a b : Enum) :
    Enum.beq a b = true ↔ Enum.scrub a = Enum.scrub b := by
  obtain ⟨v, sp, nm, items⟩ := a
  obtain ⟨v2, sp2, nm2, items2⟩ := b
  simp [Enum.beq, Enum.scrub, beq_iff_eq, and_assoc,
    listBeq_iff EnumItem.beq EnumItem.scrub enumItemBeqIff]

theorem functionBeqIff (a b : Function) :
    Function.beq a b = true ↔ Function.scrub a = Function.scrub b := by
  obtain ⟨v, sp, nm, items, rt⟩ := a
  obtain ⟨v2, sp2, nm2, items2, rt2⟩ := b
  simp [Function.beq, Function.scrub, beq_iff_eq, and_assoc,
    listBeq_iff StructItem.beq StructItem.scrub structItemBeqIff,
    optBeq_iff FieldType.beq FieldType.scrub fieldTypeBeqIff]

theorem commandBeqIff (a b : Command) :
    Command.beq a b = true ↔ Command.scrub a = Command.scrub b := by
  obtain ⟨v, sp, nm, items⟩ := a
  obtain ⟨v2, sp2, nm2, items2⟩ := b
  simp [Command.beq, Command.scrub, beq_iff_eq, and_assoc,
    listBeq_iff StructItem.beq StructItem.scrub structItemBeqIff]

theorem objectBeqIff (a b : Object) :
    Object.beq a b = true ↔ Object.scrub a = Object.scrub b := by
  cases a <;> cases b <;>
    simp [Object.beq, Object.scrub, structBeqIff, unionBeqIff, enumBeqIff]

theorem typeDefBeqIff (a b : TypeDef) :
    TypeDef.beq a b = true ↔ TypeDef.scrub a = TypeDef.scrub b := by
  cases a <;> cases b <;>
    simp [TypeDef.beq, TypeDef.scrub, objectBeqIff, structBeqIff,
      unionBeqIff, enumBeqIff, functionBeqIff, commandBeqIff]

/-- C9: equality on parsed AST values is structural and ignores source
spans: two `Scheme` values (and hence all the nodes they contain) compare
equal exactly when their span-scrubbed structures are equal, so values that
differ only in source positions compare equal and equality is determined
entirely by the span-erased structure. -/
theorem c9_eq_ignores_spans (a b : Scheme) :
    Scheme.beq a b = true ↔ Scheme.scrub a = Scheme.scrub b := by
  obtain ⟨nm, uses, types⟩ := a
  obtain ⟨nm2, uses2, types2⟩ := b
  simp [Scheme.beq, Scheme.scrub, beq_iff_eq, and_assoc,
    listBeq_iff TypeDef.beq TypeDef.scrub typeDefBeqIff]

theorem c9_eq_ignores_spans_witness :
    Scheme.beq ⟨"s", [], [.struct ⟨⟨1⟩, 5, "P", .unit⟩]⟩
      ⟨"s", [], [.struct ⟨⟨1⟩, 9, "P", .unit⟩]⟩ = true :=
  (c9_eq_ignores_spans ⟨"s", [], [.struct ⟨⟨1⟩, 5, "P", .unit⟩]⟩
    ⟨"s", [], [.struct ⟨⟨1⟩, 9, "P", .unit⟩]⟩).mpr rfl

end CycleDefine
